import Mathlib

/-!
Verification of the matter-api repository's discovery parser and device
registry against its specification.

The repository contains near-duplicate Express servers.  Two variants of the
discovery parser exist:

* `parseDiscoveryResultA` embeds `parseDiscoveryResult` of
  `src/unnamed/part_002` (exact-match marker lines, log-head stripping, no
  ANSI handling, no tag filter);
* `parseDiscoveryResultB` embeds `parseDiscoveryResult` of
  `src/matterServer/server.js` (a `[DIS]` tag filter, substring marker match,
  ANSI escape stripping, and an address extraction whose array indexing is
  only conditionally safe — modelled in the `Except` monad).

Strings are embedded as `List Char`; each JavaScript string operation used by
the source (`split`, `trim`, `startsWith`, `includes`, first-match
`replace`, global `replace`, `indexOf`/`substring`, `toLowerCase`, `join`,
`slice`) is given an executable counterpart below.  The in-memory device
registry (`deviceState`, a JS `Map`) is an association list with
insert-or-update-in-place semantics, and HTTP handlers are pure functions of
the registry, the request body, the clock and the external command outcome.
-/

/-- JavaScript strings are embedded as lists of characters. -/
abbrev Str := List Char

/-- ASCII whitespace as stripped by `String.prototype.trim` on the discovery
output handled here. -/
def isWs (c : Char) : Bool :=
  c == ' ' || c == '\t' || c == '\n' || c == '\r' || c == '\x0b' || c == '\x0c'

/-- `s.trim()`: drop whitespace from both ends. -/
def trimWs (l : Str) : Str :=
  ((l.dropWhile isWs).reverse.dropWhile isWs).reverse

/-- `s.split(sep)` for a one-character separator; like JS `split`, it keeps
empty segments and never returns an empty list. -/
def splitOnChar (sep : Char) : Str → List Str
  | [] => [[]]
  | c :: rest =>
    if c == sep then [] :: splitOnChar sep rest
    else
      match splitOnChar sep rest with
      | s :: ss => (c :: s) :: ss
      | [] => [[c]]

/-- `pat` is a prefix of `l` (the anchor test behind `startsWith`,
`includes` and `split`). -/
def leadsWith : Str → Str → Bool
  | [], _ => true
  | _ :: _, [] => false
  | p :: ps, c :: cs => p == c && leadsWith ps cs

/-- `l.includes(pat)`: `pat` occurs as a contiguous substring of `l`. -/
def hasSub (pat : Str) (l : Str) : Bool :=
  match l with
  | [] => leadsWith pat []
  | _ :: rest => leadsWith pat l || hasSub pat rest

/-- Fuel-indexed worker for `splitOnSub` (structural recursion on the fuel,
so that the kernel can evaluate it; the fuel never runs out when it starts
at the input length, since each step consumes at least one character). -/
def splitOnSubF : Nat → Str → Str → List Str
  | _, [], l => [l]
  | _, _ :: _, [] => [[]]
  | 0, _ :: _, _ :: _ => [[]]
  | fuel + 1, p :: ps, c :: rest =>
    if leadsWith (p :: ps) (c :: rest) then
      [] :: splitOnSubF fuel (p :: ps) (List.drop ps.length rest)
    else
      match splitOnSubF fuel (p :: ps) rest with
      | s :: ss => (c :: s) :: ss
      | [] => [[c]]

/-- `l.split(pat)` for a string separator: leftmost non-overlapping splits.
The sources only ever call this with a non-empty separator; the empty-pattern
case is given the harmless value `[l]`. -/
def splitOnSub (pat : Str) (l : Str) : List Str := splitOnSubF l.length pat l

/-- `parts.join(sep)` for a one-character separator. -/
def joinWith (sep : Char) : List Str → Str
  | [] => []
  | [s] => s
  | s :: ss => s ++ (sep :: joinWith sep ss)

/-- ASCII lower-casing of one character (`toLowerCase`). -/
def lowerChar (c : Char) : Char :=
  if 'A' ≤ c ∧ c ≤ 'Z' then Char.ofNat (c.toNat + 32) else c

/-- `s.toLowerCase()` restricted to ASCII letters. -/
def lowerStr (l : Str) : Str := l.map lowerChar

/-- `(n).toString()`: decimal rendering of a natural number. -/
def natStr (n : Nat) : Str := (Nat.repr n).toList

/-- Digit characters (`\d`). -/
def isDigitCh (c : Char) : Bool := '0' ≤ c && c ≤ '9'

/-- Word characters (`\w`). -/
def isWordCh (c : Char) : Bool :=
  ('a' ≤ c && c ≤ 'z') || ('A' ≤ c && c ≤ 'Z') || isDigitCh c || c == '_'

/-- Consume one expected literal character. -/
def expectChar (c : Char) : Str → Option Str
  | x :: rest => if x == c then some rest else none
  | [] => none

/-- Consume `\d+` (greedy; the regex element after it is never a digit, so
maximal munch agrees with backtracking). -/
def digits1 : Str → Option Str
  | x :: rest => if isDigitCh x then some (rest.dropWhile isDigitCh) else none
  | [] => none

/-- Consume `\w+` (greedy, same maximal-munch argument). -/
def wordChars1 : Str → Option Str
  | x :: rest => if isWordCh x then some (rest.dropWhile isWordCh) else none
  | [] => none

/-- Consume `\s*`. -/
def skipWsOpt (l : Str) : Option Str := some (l.dropWhile isWs)

/-- Sequencing of consumers. -/
def andThen (f g : Str → Option Str) (l : Str) : Option Str := (f l).bind g

/-- Match of the log-head regex
`\[\d+\.\d+\]\s*\[\d+:\d+\]\s*\[\w+\]\s*` at the head of `l`, returning the
remainder after the match. -/
def matchLogHead : Str → Option Str :=
  andThen (expectChar '[') <|
  andThen digits1 <|
  andThen (expectChar '.') <|
  andThen digits1 <|
  andThen (expectChar ']') <|
  andThen skipWsOpt <|
  andThen (expectChar '[') <|
  andThen digits1 <|
  andThen (expectChar ':') <|
  andThen digits1 <|
  andThen (expectChar ']') <|
  andThen skipWsOpt <|
  andThen (expectChar '[') <|
  andThen wordChars1 <|
  andThen (expectChar ']') skipWsOpt

/-- `line.replace(regex, '')` for a non-global regex: delete the leftmost
match, keep everything else.  The regex cannot match the empty string, so a
string with no match is returned unchanged. -/
def removeFirstMatch : Str → Str
  | [] => []
  | c :: rest =>
    match matchLogHead (c :: rest) with
    | some rem => rem
    | none => c :: removeFirstMatch rest

/-- `cleanLine` of `src/unnamed/part_002`: strip one log-head prefix
occurrence, then trim. -/
def cleanLineA (l : Str) : Str := trimWs (removeFirstMatch l)

/-- `extractValue` of `src/unnamed/part_002`: the trimmed text after the
first colon, or the empty string when there is no colon. -/
def afterFirstColon : Str → Option Str
  | [] => none
  | x :: rest => if x == ':' then some rest else afterFirstColon rest

def extractValueA (l : Str) : Str :=
  match afterFirstColon l with
  | none => []
  | some r => trimWs r

/-- The node-start marker line. -/
def marker : Str := "Discovered commissionable/commissioner node:".toList

/-- A device record as built by `parseDiscoveryResult` in
`src/unnamed/part_002`.  The JS accumulator object carries no `nodeId` or
`type` key until the final `map`; both are embedded here as fields that the
fresh record leaves empty and the final numbering pass overwrites. -/
structure DeviceA where
  name : Str
  addresses : List Str
  port : Str
  vendorId : Str
  productId : Str
  deviceType : Str
  discriminator : Str
  pairingHint : Str
  instanceName : Str
  commissioningMode : Str
  supportsCGP : Bool
  nodeId : Str
  type : Str
deriving DecidableEq, Repr

/-- The fresh accumulator created at each marker line. -/
def freshA : DeviceA :=
  { name := [], addresses := [], port := [], vendorId := [], productId := []
    deviceType := [], discriminator := [], pairingHint := [], instanceName := []
    commissioningMode := [], supportsCGP := false, nodeId := [], type := [] }

/-- The field-assignment chain of part_002's parser (the `else if` ladder on
a cleaned line, in source order), for an open accumulator. -/
def updateFieldA (d : DeviceA) (cl : Str) : DeviceA :=
  if leadsWith "Hostname:".toList cl then { d with name := extractValueA cl }
  else if leadsWith "IP Address #".toList cl then
    let address := extractValueA cl
    if address ≠ [] then { d with addresses := d.addresses ++ [address] } else d
  else if leadsWith "Port:".toList cl then { d with port := extractValueA cl }
  else if leadsWith "Vendor ID:".toList cl then { d with vendorId := extractValueA cl }
  else if leadsWith "Product ID:".toList cl then { d with productId := extractValueA cl }
  else if leadsWith "Device Type:".toList cl then { d with deviceType := extractValueA cl }
  else if leadsWith "Long Discriminator:".toList cl then { d with discriminator := extractValueA cl }
  else if leadsWith "Pairing Hint:".toList cl then { d with pairingHint := extractValueA cl }
  else if leadsWith "Instance Name:".toList cl then { d with instanceName := extractValueA cl }
  else if leadsWith "Commissioning Mode:".toList cl then { d with commissioningMode := extractValueA cl }
  else if leadsWith "Supports Commissioner Generated Passcode:".toList cl then
    { d with supportsCGP := lowerStr (extractValueA cl) == "true".toList }
  else d

/-- Push the open accumulator, if any (used at marker lines and at the end
of the scan). -/
def pushOpt (ds : List DeviceA) : Option DeviceA → List DeviceA
  | none => ds
  | some d => ds ++ [d]

/-- One loop iteration of part_002's parser. -/
def stepA (ds : List DeviceA) (cur : Option DeviceA) (line : Str) :
    List DeviceA × Option DeviceA :=
  if cleanLineA line == marker then (pushOpt ds cur, some freshA)
  else
    match cur with
    | none => (ds, none)
    | some d => (ds, some (updateFieldA d (cleanLineA line)))

/-- The line scan of part_002's parser. -/
def scanA : List Str → List DeviceA → Option DeviceA → List DeviceA × Option DeviceA
  | [], ds, cur => (ds, cur)
  | l :: rest, ds, cur =>
    match stepA ds cur l with
    | (ds', cur') => scanA rest ds' cur'

/-- Push of the last open accumulator after the scan. -/
def finishA (p : List DeviceA × Option DeviceA) : List DeviceA := pushOpt p.1 p.2

/-- The final `devices.map((device, index) => ({...device,
nodeId: (index+1).toString(), type: 'wifi'}))` pass. -/
def numberFrom (k : Nat) : List DeviceA → List DeviceA
  | [] => []
  | d :: rest =>
    { d with nodeId := natStr k, type := "wifi".toList } :: numberFrom (k + 1) rest

/-- `parseDiscoveryResult` of `src/unnamed/part_002`: empty or
whitespace-only input short-circuits to the empty list, otherwise the lines
are scanned and the records numbered.  The body performs no fallible
operation (its only indexing, `extractValue`, guards the missing-colon
case), so the surrounding `try`/`catch` of the source is unreachable and the
embedding is a total function. -/
def parseDiscoveryResultA (s : Str) : List DeviceA :=
  if trimWs s == [] then []
  else numberFrom 1 (finishA (scanA (splitOnChar '\n' s) [] none))

/-- `detectDeviceType` of `src/unnamed/part_002` (defined in the source but
never called by the parser). -/
def detectDeviceType (s : Str) : Str :=
  if hasSub "wifi".toList (lowerStr s) then "wifi".toList
  else if hasSub "thread".toList (lowerStr s) then "thread".toList
  else "unknown".toList

/-- Removal of one ANSI escape `ESC [ [0-9;]* m` at the head of `l`:
the number of characters the match consumes, or `none`. -/
def ansiLen (l : Str) : Option Nat :=
  match l with
  | '\x1b' :: '[' :: rest =>
    match rest.drop (rest.takeWhile fun c => isDigitCh c || c == ';').length with
    | 'm' :: _ => some ((rest.takeWhile fun c => isDigitCh c || c == ';').length + 3)
    | _ => none
  | _ => none

/-- Fuel-indexed worker for `removeAnsi` (structural recursion on the fuel;
every ANSI match consumes at least three characters, so fuel equal to the
input length never runs out). -/
def removeAnsiF : Nat → Str → Str
  | _, [] => []
  | 0, l => l
  | fuel + 1, c :: rest =>
    match ansiLen (c :: rest) with
    | some k => removeAnsiF fuel (List.drop k (c :: rest))
    | none => c :: removeAnsiF fuel rest

/-- `removeAnsiEscapes` of `src/matterServer/server.js`:
`str.replace(/\x1b\[[0-9;]*m/g, '')` — a single left-to-right pass deleting
each match and resuming after it. -/
def removeAnsi (l : Str) : Str := removeAnsiF l.length l

/-- A device record as built by `parseDiscoveryResult` in
`src/matterServer/server.js`. -/
structure DeviceB where
  nodeId : Str
  name : Str
  setupPinCode : Str
  setupDiscriminator : Str
  vendorId : Str
  productId : Str
  deviceType : Str
  instanceName : Str
  addresses : List Str
  port : Str
  pairingHint : Str
  commissioningMode : Str
  type : Str
deriving DecidableEq, Repr

/-- The fresh accumulator of the server.js parser (its object literal sets
`type: 'wifi'`). -/
def freshB : DeviceB :=
  { nodeId := [], name := [], setupPinCode := [], setupDiscriminator := []
    vendorId := [], productId := [], deviceType := [], instanceName := []
    addresses := [], port := [], pairingHint := [], commissioningMode := []
    type := "wifi".toList }

/-- `extractValue(line, key)` of the server.js parser:
`line.split(key + ':')[1].trim()` with a second ANSI strip, or `''` when the
key does not occur. -/
def extractValueB (l : Str) (key : Str) : Str :=
  match splitOnSub (key ++ [':']) l with
  | _ :: v :: _ => removeAnsi (trimWs v)
  | _ => []

/-- The address extraction
`cleanLine.split('IP Address #')[1].split(':').slice(1).join(':').trim()`.
When `'IP Address #'` does not occur, the JS indexing `[1]` yields
`undefined` and the subsequent `.split` throws — modelled as `Except.error`.
(The caller only reaches this after an `includes` check, so the error is in
fact unreachable; claim C7 proves this.) -/
def ipValueB (cl : Str) : Except Str Str :=
  match splitOnSub "IP Address #".toList cl with
  | _ :: t :: _ =>
    .ok (trimWs (joinWith ':' (List.drop 1 (splitOnChar ':' t))))
  | _ => .error "TypeError: undefined has no properties".toList

/-- The field-assignment chain of the server.js parser (substring tests, in
source order), for an open accumulator. -/
def updateFieldB (d : DeviceB) (cl : Str) : Except Str DeviceB :=
  if hasSub "Hostname:".toList cl then
    .ok { d with name := extractValueB cl "Hostname".toList }
  else if hasSub "IP Address #".toList cl then
    match ipValueB cl with
    | .error e => .error e
    | .ok address =>
      if address ≠ [] ∧ address ≠ "not present".toList then
        .ok { d with addresses := d.addresses ++ [address] }
      else .ok d
  else if hasSub "Port:".toList cl then
    .ok { d with port := extractValueB cl "Port".toList }
  else if hasSub "Long Discriminator:".toList cl then
    .ok { d with setupDiscriminator := extractValueB cl "Long Discriminator".toList }
  else if hasSub "Vendor ID:".toList cl then
    .ok { d with vendorId := extractValueB cl "Vendor ID".toList }
  else if hasSub "Product ID:".toList cl then
    .ok { d with productId := extractValueB cl "Product ID".toList }
  else if hasSub "Device Type:".toList cl then
    .ok { d with deviceType := extractValueB cl "Device Type".toList }
  else if hasSub "Instance Name:".toList cl then
    .ok { d with instanceName := extractValueB cl "Instance Name".toList }
  else if hasSub "Pairing Hint:".toList cl then
    .ok { d with pairingHint := extractValueB cl "Pairing Hint".toList }
  else if hasSub "Commissioning Mode:".toList cl then
    .ok { d with commissioningMode := extractValueB cl "Commissioning Mode".toList }
  else .ok d

/-- Push the open accumulator, if any (server.js variant). -/
def pushOptB (ds : List DeviceB) : Option DeviceB → List DeviceB
  | none => ds
  | some d => ds ++ [d]

/-- One loop iteration of the server.js parser: skip lines without the
`[DIS]` tag; otherwise trim, strip ANSI escapes, and either open a new
record at a marker-containing line or update the open one. -/
def stepB (ds : List DeviceB) (cur : Option DeviceB) (line : Str) :
    Except Str (List DeviceB × Option DeviceB) :=
  if hasSub "[DIS]".toList line then
    if hasSub marker (removeAnsi (trimWs line)) then .ok (pushOptB ds cur, some freshB)
    else
      match cur with
      | none => .ok (ds, none)
      | some d =>
        match updateFieldB d (removeAnsi (trimWs line)) with
        | .error e => .error e
        | .ok d' => .ok (ds, some d')
  else .ok (ds, cur)

/-- The line scan of the server.js parser. -/
def scanB : List Str → List DeviceB → Option DeviceB →
    Except Str (List DeviceB × Option DeviceB)
  | [], ds, cur => .ok (ds, cur)
  | l :: rest, ds, cur =>
    match stepB ds cur l with
    | .error e => .error e
    | .ok (ds', cur') => scanB rest ds' cur'

/-- The final `devices.map((device, index) => ({...device,
nodeId: (index+1).toString()}))` pass of the server.js parser. -/
def numberFromB (k : Nat) : List DeviceB → List DeviceB
  | [] => []
  | d :: rest => { d with nodeId := natStr k } :: numberFromB (k + 1) rest

/-- The body of server.js's `parseDiscoveryResult` inside its `try`:
empty-input short-circuit, line scan, final push, numbering.  A raised
exception surfaces as `Except.error`. -/
def parseBrun (s : Str) : Except Str (List DeviceB) :=
  if trimWs s == [] then .ok []
  else
    match scanB (splitOnChar '\n' s) [] none with
    | .error e => .error e
    | .ok (ds, cur) => .ok (numberFromB 1 (pushOptB ds cur))

/-- `parseDiscoveryResult` of `src/matterServer/server.js`: the `catch`
block converts any exception into the empty list. -/
def parseDiscoveryResultB (s : Str) : List DeviceB :=
  match parseBrun s with
  | .ok l => l
  | .error _ => []

/-- A registry entry: one value of the `deviceState` JS `Map`.  The handlers
of the repository store plain objects whose key sets differ by code path, so
every key any handler ever writes is embedded as an `Option` field; a key
absent from the stored object is `none`.  The nested `network` object
(`{ssid, timestamp}`) is flattened into `networkSsid`/`networkTimestamp`
(both set together or both absent). -/
structure Entry where
  name : Option Str := none
  addresses : Option (List Str) := none
  port : Option Str := none
  vendorId : Option Str := none
  productId : Option Str := none
  deviceType : Option Str := none
  discriminator : Option Str := none
  pairingHint : Option Str := none
  instanceName : Option Str := none
  commissioningMode : Option Str := none
  supportsCGP : Option Bool := none
  nodeId : Option Str := none
  type : Option Str := none
  status : Option Str := none
  timestamp : Option Str := none
  setupCode : Option Str := none
  manualPairingCode : Option Str := none
  pairingTimestamp : Option Str := none
  setupPinCode : Option Str := none
  setupDiscriminator : Option Str := none
  networkSsid : Option Str := none
  networkTimestamp : Option Str := none
deriving DecidableEq, Repr

/-- The object literal `{}` (all keys absent). -/
def emptyEntry : Entry := {}

/-- `deviceState` is a JS `Map` keyed by node-id strings: an association
list in insertion order. -/
abbrev Registry := List (Str × Entry)

/-- `Map.get`: the value at `k`, if present. -/
def mapGet (m : Registry) (k : Str) : Option Entry :=
  match m with
  | [] => none
  | (k', v) :: rest => if k' = k then some v else mapGet rest k

/-- `Map.set`: update in place when the key exists (keeping its position),
otherwise append. -/
def mapSet (m : Registry) (k : Str) (v : Entry) : Registry :=
  match m with
  | [] => [(k, v)]
  | (k', v') :: rest => if k' = k then (k, v) :: rest else (k', v') :: mapSet rest k v

/-- JS truthiness of an optional string request field: `undefined` and `''`
are falsy. -/
def truthy (o : Option Str) : Bool :=
  match o with
  | none => false
  | some s => !s.isEmpty

/-- JS `a || b` on optional strings. -/
def jsOr (a b : Option Str) : Option Str := if truthy a then a else b

/-- Outcome of `executeMatterCommand`: the awaited promise either resolves
with the tool's stdout or rejects with an error message. -/
inductive ExecOutcome where
  | ok (out : Str) : ExecOutcome
  | err (msg : Str) : ExecOutcome
deriving DecidableEq, Repr

/-- What a request handler observably does: the HTTP status code, the
`status` field of the JSON envelope, whether the external command was
launched, and the registry afterwards.  (Response bodies also carry
localized messages and, on failure, a classified error code; neither is
needed by the claims and they are not modelled.) -/
structure HandlerResult where
  httpStatus : Nat
  respStatus : Str
  ranCommand : Bool
  registry : Registry
deriving DecidableEq, Repr

/-- `MATTER_CONFIG.defaultNodeId`. -/
def defaultNodeId : Str := "1".toList

/-- Request body of `POST /api/pairing/code`. -/
structure PairingCodeReq where
  nodeId : Option Str := none
  setupCode : Option Str := none
  discriminator : Option Str := none
deriving DecidableEq, Repr

/-- `POST /api/pairing/code` of `src/matterServer/server.js` (identical in
`src/unnamed/part_001`): missing/empty `setupCode` is rejected with 400
before anything runs; on tool success the registry entry for the node id is
replaced by the fresh object `{status, setupCode, discriminator, timestamp}`
— no spread of any prior entry. -/
def pairingCodeHandler (reg : Registry) (req : PairingCodeReq) (now : Str)
    (exec : ExecOutcome) : HandlerResult :=
  if truthy req.setupCode then
    match exec with
    | .err _ => ⟨500, "error".toList, true, reg⟩
    | .ok _ =>
      ⟨200, "success".toList, true,
        mapSet reg (req.nodeId.getD defaultNodeId)
          { emptyEntry with
            status := some "paired".toList
            setupCode := req.setupCode
            discriminator := req.discriminator
            timestamp := some now }⟩
  else ⟨400, "error".toList, false, reg⟩

/-- Request body of `POST /api/device/pair`. -/
structure DevicePairReq where
  deviceId : Option Str := none
  manualPairingCode : Option Str := none
deriving DecidableEq, Repr

/-- `POST /api/device/pair` of `src/unnamed/part_002`: missing code → 400;
unknown device → 404; on tool success the prior entry is spread and updated
(`{...deviceInfo, manualPairingCode, status: 'paired', pairingTimestamp}`). -/
def devicePairHandler (reg : Registry) (req : DevicePairReq) (now : Str)
    (exec : ExecOutcome) : HandlerResult :=
  if truthy req.manualPairingCode then
    match req.deviceId with
    | none => ⟨404, "error".toList, false, reg⟩
    | some did =>
      match mapGet reg did with
      | none => ⟨404, "error".toList, false, reg⟩
      | some info =>
        match exec with
        | .err _ => ⟨500, "error".toList, true, reg⟩
        | .ok _ =>
          ⟨200, "success".toList, true,
            mapSet reg did
              { info with
                manualPairingCode := req.manualPairingCode
                status := some "paired".toList
                pairingTimestamp := some now }⟩
  else ⟨400, "error".toList, false, reg⟩

/-- Request body of `POST /api/device/commission`. -/
structure DeviceCommissionReq where
  deviceId : Option Str := none
  ssid : Option Str := none
  password : Option Str := none
deriving DecidableEq, Repr

/-- `POST /api/device/commission` of `src/unnamed/part_002`: unknown device
→ 404; status other than `'paired'` → 400; missing Wi-Fi credentials (after
the `process.env` fallback, passed here as `envSsid`/`envPassword`) → 400;
on tool success the prior entry is spread and updated to `'commissioned'`
with the `network` object. -/
def deviceCommissionHandler (reg : Registry) (req : DeviceCommissionReq)
    (envSsid envPassword : Option Str) (now : Str) (exec : ExecOutcome) :
    HandlerResult :=
  match req.deviceId with
  | none => ⟨404, "error".toList, false, reg⟩
  | some did =>
    match mapGet reg did with
    | none => ⟨404, "error".toList, false, reg⟩
    | some info =>
      if info.status = some "paired".toList then
        let wifiSSID := jsOr req.ssid envSsid
        let wifiPassword := jsOr req.password envPassword
        if truthy wifiSSID && truthy wifiPassword then
          match exec with
          | .err _ => ⟨500, "error".toList, true, reg⟩
          | .ok _ =>
            ⟨200, "success".toList, true,
              mapSet reg did
                { info with
                  status := some "commissioned".toList
                  networkSsid := wifiSSID
                  networkTimestamp := some now }⟩
        else ⟨400, "error".toList, false, reg⟩
      else ⟨400, "error".toList, false, reg⟩

/-- Request body of `POST /api/commissioning/wifi`. -/
structure WifiCommissioningReq where
  nodeId : Option Str := none
  ssid : Option Str := none
  password : Option Str := none
  discriminator : Option Str := none
deriving DecidableEq, Repr

/-- `POST /api/commissioning/wifi` of `src/matterServer/server.js`
(identical in `src/unnamed/part_001`): missing `ssid`/`password` → 400;
otherwise the command runs with no registry check at all —
`deviceState.get(nodeId) || {}` — and on success the (possibly absent) prior
entry is spread and stored as `'commissioned'`. -/
def commissioningWifiHandler (reg : Registry) (req : WifiCommissioningReq)
    (now : Str) (exec : ExecOutcome) : HandlerResult :=
  if truthy req.ssid && truthy req.password then
    match exec with
    | .err _ => ⟨500, "error".toList, true, reg⟩
    | .ok _ =>
      ⟨200, "success".toList, true,
        mapSet reg (req.nodeId.getD defaultNodeId)
          { (mapGet reg (req.nodeId.getD defaultNodeId)).getD emptyEntry with
            status := some "commissioned".toList
            networkSsid := req.ssid
            networkTimestamp := some now }⟩
  else ⟨400, "error".toList, false, reg⟩

/-- The per-device body of the `devices.forEach` registration in
`POST /api/device/search` of `src/unnamed/part_002`:
`deviceState.set(device.nodeId, {...device, status: 'discovered',
timestamp})`. -/
def discoveredEntry (d : DeviceA) (now : Str) : Entry :=
  { name := some d.name
    addresses := some d.addresses
    port := some d.port
    vendorId := some d.vendorId
    productId := some d.productId
    deviceType := some d.deviceType
    discriminator := some d.discriminator
    pairingHint := some d.pairingHint
    instanceName := some d.instanceName
    commissioningMode := some d.commissioningMode
    supportsCGP := some d.supportsCGP
    nodeId := some d.nodeId
    type := some d.type
    status := some "discovered".toList
    timestamp := some now }

def upsertDiscovered (reg : Registry) (d : DeviceA) (now : Str) : Registry :=
  mapSet reg d.nodeId (discoveredEntry d now)

/-! ### Concrete inputs used by witnesses and counterexamples -/

/-- A fixed clock value (`new Date().toISOString()` is external input to the
embedding). -/
def nowS : Str := "2026-10-11T00:00:00.000Z".toList

/-- A fixed tool stdout for successful command runs. -/
def outS : Str := "stdout".toList

/-- The spec's scenario input for claim C2. -/
def inC2 : Str := "Discovered commissionable/commissioner node:\nHostname: light1\nIP Address #1: 192.168.1.50\nPort: 5540\nVendor ID: 0xFFF1\n".toList

/-- Commissioning request for a node id never seen (claim C1). -/
def reqC1cx : WifiCommissioningReq :=
  { nodeId := some "42".toList, ssid := some "homewifi".toList
    password := some "pw".toList }

def reqC1w : DeviceCommissionReq :=
  { deviceId := some "9".toList, ssid := some "homewifi".toList
    password := some "pw".toList }

/-- A body containing only a discriminator (claim C8). -/
def reqC8 : PairingCodeReq := { discriminator := some "123".toList }

/-- Discovery input and the record it parses to (claim C9's witness). -/
def inC9 : Str := "Discovered commissionable/commissioner node:\nHostname: light1\nIP Address #1: 192.168.1.50\nPort: 5540\nVendor ID: 0xFFF1\n".toList

def devC9 : DeviceA :=
  { name := "light1".toList, addresses := ["192.168.1.50".toList]
    port := "5540".toList, vendorId := "0xFFF1".toList, productId := []
    deviceType := [], discriminator := [], pairingHint := [], instanceName := []
    commissioningMode := [], supportsCGP := false, nodeId := "1".toList
    type := "wifi".toList }

/-- A previously discovered registry entry and the pairing requests used by
claim C10's witness. -/
def entC10 : Entry :=
  { name := some "light1".toList, addresses := some ["192.168.1.50".toList]
    port := some "5540".toList, vendorId := some "0xFFF1".toList
    status := some "discovered".toList, timestamp := some nowS }

def regC10 : Registry := [("1".toList, entC10)]

def reqC10 : PairingCodeReq :=
  { nodeId := some "1".toList, setupCode := some "34970112332".toList
    discriminator := some "3840".toList }

def reqC10b : DevicePairReq :=
  { deviceId := some "1".toList, manualPairingCode := some "34970112332".toList }

/-- Input with a `not present` address line (claim C3). -/
def inC3cx : Str := "Discovered commissionable/commissioner node:\nIP Address #1: not present\n".toList

/-- `[DIS]`-tagged input with a concrete address (claim C3). -/
def inC3ok : Str := "[DIS] Discovered commissionable/commissioner node:\n[DIS] IP Address #1: 10.0.0.5\n".toList

/-- The record the server.js parser produces from `inC3ok`. -/
def devC3 : DeviceB :=
  { nodeId := "1".toList, name := [], setupPinCode := [], setupDiscriminator := []
    vendorId := [], productId := [], deviceType := [], instanceName := []
    addresses := ["10.0.0.5".toList], port := [], pairingHint := []
    commissioningMode := [], type := "wifi".toList }

/-- Discovery text naming a thread device (claim C4). -/
def inC4 : Str := "Discovered commissionable/commissioner node:\nHostname: thread-light".toList

/-- The record part_002's parser produces from `inC4`. -/
def devC4 : DeviceA :=
  { name := "thread-light".toList, addresses := [], port := [], vendorId := []
    productId := [], deviceType := [], discriminator := [], pairingHint := []
    instanceName := [], commissioningMode := [], supportsCGP := false
    nodeId := "1".toList, type := "wifi".toList }

/-- The number of input lines whose cleaned form is exactly the marker —
the quantity part_002's parser actually counts (claim C5). -/
def markerLineCount (s : Str) : Nat :=
  ((splitOnChar '\n' s).filter (fun l => cleanLineA l == marker)).length

/-- A line that contains the marker as a substring without being a cleaned
marker line (claim C5). -/
def inC5cx : Str := "x Discovered commissionable/commissioner node:".toList

/-- Two device blocks (claim C5's witness). -/
def inC5w : Str := "Discovered commissionable/commissioner node:\nHostname: a\nDiscovered commissionable/commissioner node:\nHostname: b\n".toList

/-- Whether an ANSI color escape `ESC [ [0-9;]* m` occurs anywhere in `l`. -/
def hasAnsi (l : Str) : Bool :=
  match l with
  | [] => false
  | _ :: rest => (ansiLen l).isSome || hasAnsi rest

/-- Discovery output with a color-wrapped hostname, untagged (claim C6). -/
def inC6cx : Str := "Discovered commissionable/commissioner node:\nHostname: \x1b[32mlight1\x1b[0m\n".toList

/-- Discovery output with a color-wrapped hostname, `[DIS]`-tagged
(claim C6). -/
def inC6ok : Str := "[DIS] Discovered commissionable/commissioner node:\n[DIS] Hostname: \x1b[32mlight1\x1b[0m\n".toList

/-! ### Registry lemmas -/

theorem mapGet_mapSet_self (m : Registry) (k : Str) (v : Entry) :
    mapGet (mapSet m k v) k = some v := by
  induction m with
  | nil => simp [mapSet, mapGet]
  | cons p rest ih =>
    obtain ⟨k', v'⟩ := p
    by_cases hk : k' = k
    · simp [mapSet, mapGet, hk]
    · simp [mapSet, mapGet, hk, ih]

/-! ### Claim C8 -/

/-- C8: a POST to `/api/pairing/code` whose body lacks `setupCode` is
answered with HTTP 400 and the error envelope, without executing the
external command and without mutating the device registry. -/
theorem C8_missing_setupCode_400 (reg : Registry) (req : PairingCodeReq)
    (now : Str) (exec : ExecOutcome) (h : req.setupCode = none) :
    pairingCodeHandler reg req now exec = ⟨400, "error".toList, false, reg⟩ := by
  simp [pairingCodeHandler, truthy, h]

theorem C8_witness :
    reqC8.setupCode = none ∧
    pairingCodeHandler [] reqC8 nowS (.ok outS) = ⟨400, "error".toList, false, []⟩ :=
  ⟨rfl, C8_missing_setupCode_400 [] reqC8 nowS (.ok outS) rfl⟩

/-! ### Claim C1 -/

/-- C1 (amended): for `/api/device/commission` of part_002, a request whose
`deviceId` has no registry entry is answered 404 with the error envelope,
the external command is not run, and the registry is unchanged.  (The
`/api/commissioning/wifi` endpoint performs no such check; see
`C1_counterexample`.) -/
theorem C1_deviceCommission_unknown_notFound (reg : Registry)
    (req : DeviceCommissionReq) (envS envP : Option Str) (now : Str)
    (exec : ExecOutcome) (h : req.deviceId.bind (mapGet reg) = none) :
    deviceCommissionHandler reg req envS envP now exec =
      ⟨404, "error".toList, false, reg⟩ := by
  match hd : req.deviceId with
  | none => simp [deviceCommissionHandler, hd]
  | some did =>
    rw [hd] at h
    simp only [Option.some_bind] at h
    simp [deviceCommissionHandler, hd, h]

theorem C1_witness :
    reqC1w.deviceId.bind (mapGet ([] : Registry)) = none ∧
    deviceCommissionHandler [] reqC1w none none nowS (.ok outS) =
      ⟨404, "error".toList, false, []⟩ :=
  ⟨rfl, C1_deviceCommission_unknown_notFound [] reqC1w none none nowS (.ok outS) rfl⟩

/-- C1 does not hold as stated: `/api/commissioning/wifi` on an empty
registry and a never-seen node id `"42"` answers 200 (not 404), runs the
external command, and creates a commissioned registry entry. -/
theorem C1_counterexample :
    (commissioningWifiHandler [] reqC1cx nowS (.ok outS)).httpStatus = 200 ∧
    (commissioningWifiHandler [] reqC1cx nowS (.ok outS)).ranCommand = true ∧
    (commissioningWifiHandler [] reqC1cx nowS (.ok outS)).registry ≠ [] := by
  decide

/-! ### Claim C9 -/

/-- C9: registering a record produced by a discovery scan (the forEach body
of `/api/device/search`) and then looking its `nodeId` up returns an entry
with status `discovered` and every discovery field intact. -/
theorem C9_roundTrip (s : Str) (d : DeviceA) (reg : Registry) (now : Str)
    (_hd : d ∈ parseDiscoveryResultA s) :
    mapGet (upsertDiscovered reg d now) d.nodeId = some (discoveredEntry d now) ∧
    (discoveredEntry d now).status = some "discovered".toList ∧
    (discoveredEntry d now).name = some d.name ∧
    (discoveredEntry d now).addresses = some d.addresses ∧
    (discoveredEntry d now).port = some d.port ∧
    (discoveredEntry d now).vendorId = some d.vendorId ∧
    (discoveredEntry d now).productId = some d.productId ∧
    (discoveredEntry d now).deviceType = some d.deviceType ∧
    (discoveredEntry d now).discriminator = some d.discriminator ∧
    (discoveredEntry d now).instanceName = some d.instanceName ∧
    (discoveredEntry d now).commissioningMode = some d.commissioningMode := by
  refine ⟨?_, rfl, rfl, rfl, rfl, rfl, rfl, rfl, rfl, rfl, rfl⟩
  simp [upsertDiscovered, mapGet_mapSet_self]

theorem C9_witness :
    devC9 ∈ parseDiscoveryResultA inC9 ∧
    mapGet (upsertDiscovered [] devC9 nowS) devC9.nodeId =
      some (discoveredEntry devC9 nowS) :=
  ⟨by decide, (C9_roundTrip inC9 devC9 [] nowS (by decide)).1⟩

/-! ### Claim C10 -/

/-- C10: a successful `/api/pairing/code` stores a fresh entry holding only
`status`, `setupCode`, `discriminator` and `timestamp` (every other key
absent, whatever was stored before), while a successful `/api/device/pair`
spreads the prior entry, preserving its discovery fields. -/
theorem C10_pairingCode_fresh_replace (reg : Registry) (req : PairingCodeReq)
    (now out : Str) (hsc : truthy req.setupCode = true)
    (reg2 : Registry) (req2 : DevicePairReq) (did : Str) (e : Entry)
    (now2 out2 : Str) (hdid : req2.deviceId = some did)
    (he : mapGet reg2 did = some e)
    (hmc : truthy req2.manualPairingCode = true) :
    (mapGet (pairingCodeHandler reg req now (.ok out)).registry
        (req.nodeId.getD defaultNodeId) =
      some { status := some "paired".toList, setupCode := req.setupCode
             discriminator := req.discriminator, timestamp := some now }) ∧
    (mapGet (devicePairHandler reg2 req2 now2 (.ok out2)).registry did =
      some { e with manualPairingCode := req2.manualPairingCode
                    status := some "paired".toList
                    pairingTimestamp := some now2 }) ∧
    ({ e with manualPairingCode := req2.manualPairingCode
              status := some "paired".toList
              pairingTimestamp := some now2 } : Entry).name = e.name ∧
    ({ e with manualPairingCode := req2.manualPairingCode
              status := some "paired".toList
              pairingTimestamp := some now2 } : Entry).addresses = e.addresses := by
  refine ⟨?_, ?_, rfl, rfl⟩
  · simp [pairingCodeHandler, hsc, mapGet_mapSet_self, emptyEntry]
  · simp [devicePairHandler, hmc, hdid, he, mapGet_mapSet_self]

theorem C10_witness :
    truthy reqC10.setupCode = true ∧
    mapGet regC10 "1".toList = some entC10 ∧
    truthy reqC10b.manualPairingCode = true ∧
    mapGet (pairingCodeHandler regC10 reqC10 nowS (.ok outS)).registry
        (reqC10.nodeId.getD defaultNodeId) =
      some { status := some "paired".toList, setupCode := reqC10.setupCode
             discriminator := reqC10.discriminator, timestamp := some nowS } :=
  ⟨by decide, by decide, by decide,
    (C10_pairingCode_fresh_replace regC10 reqC10 nowS outS (by decide)
      regC10 reqC10b "1".toList entC10 nowS outS rfl (by decide) (by decide)).1⟩

/-! ### Claim C2 -/

/-- C2: the spec's scenario input parses to exactly one record with
`nodeId "1"`, `name "light1"`, `addresses ["192.168.1.50"]`, `port "5540"`
and `vendorId "0xFFF1"` (part_002's parser, the variant without the `[DIS]`
tag filter). -/
theorem C2_scenario_parse :
    (parseDiscoveryResultA inC2).map
        (fun d => (d.nodeId, d.name, d.addresses, d.port, d.vendorId)) =
      [("1".toList, "light1".toList, ["192.168.1.50".toList], "5540".toList,
        "0xFFF1".toList)] := by
  decide

/-! ### Claim C4 -/

theorem numberFrom_type (k : Nat) (ds : List DeviceA) (d : DeviceA)
    (hd : d ∈ numberFrom k ds) : d.type = "wifi".toList := by
  induction ds generalizing k with
  | nil => simp [numberFrom] at hd
  | cons x rest ih =>
    simp only [numberFrom, List.mem_cons] at hd
    rcases hd with rfl | hd
    · rfl
    · exact ih (k + 1) hd

/-- C4 (amended): every record returned by part_002's parser has
`type = 'wifi'` unconditionally — the type is not inferred from the output
text (`detectDeviceType`, which would return one of `wifi`/`thread`/
`unknown`, is defined but never called by the parser). -/
theorem C4_networkType_amended (s : Str) (d : DeviceA)
    (hd : d ∈ parseDiscoveryResultA s) :
    d.type = "wifi".toList ∧
    (detectDeviceType s = "wifi".toList ∨ detectDeviceType s = "thread".toList ∨
      detectDeviceType s = "unknown".toList) := by
  constructor
  · unfold parseDiscoveryResultA at hd
    split at hd
    · simp at hd
    · exact numberFrom_type 1 _ d hd
  · unfold detectDeviceType
    split
    · exact Or.inl rfl
    · split
      · exact Or.inr (Or.inl rfl)
      · exact Or.inr (Or.inr rfl)

theorem C4_witness :
    devC4 ∈ parseDiscoveryResultA inC4 ∧ devC4.type = "wifi".toList :=
  ⟨by decide, (C4_networkType_amended inC4 devC4 (by decide)).1⟩

/-- C4 does not hold as stated: on discovery text whose own type-inference
function says `thread`, the parser still labels the record `wifi`. -/
theorem C4_counterexample :
    detectDeviceType inC4 = "thread".toList ∧
    (parseDiscoveryResultA inC4).map DeviceA.type = ["wifi".toList] := by
  decide

/-! ### Claim C3 -/

theorem updateFieldB_addresses (d : DeviceB) (cl : Str) (d' : DeviceB)
    (h : updateFieldB d cl = .ok d') :
    d'.addresses = d.addresses ∨
      ∃ a, d'.addresses = d.addresses ++ [a] ∧ a ≠ "not present".toList := by
  unfold updateFieldB at h
  split at h
  · simp only [Except.ok.injEq] at h; subst h; left; rfl
  · split at h
    · split at h
      · exact absurd h (by simp)
      · split at h
        · next hguard =>
            simp only [Except.ok.injEq] at h; subst h
            exact Or.inr ⟨_, rfl, hguard.2⟩
        · simp only [Except.ok.injEq] at h; subst h; left; rfl
    · repeat' split at h
      all_goals (simp only [Except.ok.injEq] at h; subst h; left; rfl)

theorem pushOptB_mem (ds : List DeviceB) (cur : Option DeviceB) (d : DeviceB)
    (hd : d ∈ pushOptB ds cur) : d ∈ ds ∨ cur = some d := by
  cases cur with
  | none => exact Or.inl hd
  | some x =>
    simp only [pushOptB, List.mem_append, List.mem_singleton] at hd
    rcases hd with hd | rfl
    · exact Or.inl hd
    · exact Or.inr rfl

theorem stepB_inv (ds : List DeviceB) (cur : Option DeviceB) (line : Str)
    (ds' : List DeviceB) (cur' : Option DeviceB)
    (h : stepB ds cur line = .ok (ds', cur'))
    (hds : ∀ d ∈ ds, "not present".toList ∉ d.addresses)
    (hcur : ∀ d, cur = some d → "not present".toList ∉ d.addresses) :
    (∀ d ∈ ds', "not present".toList ∉ d.addresses) ∧
      (∀ d, cur' = some d → "not present".toList ∉ d.addresses) := by
  unfold stepB at h
  split at h
  · split at h
    · simp only [Except.ok.injEq, Prod.mk.injEq] at h
      obtain ⟨rfl, rfl⟩ := h
      constructor
      · intro d hd
        rcases pushOptB_mem ds cur d hd with hd' | hd'
        · exact hds d hd'
        · exact hcur d hd'
      · intro d hd
        cases hd
        simp [freshB]
    · split at h
      · simp only [Except.ok.injEq, Prod.mk.injEq] at h
        obtain ⟨rfl, rfl⟩ := h
        exact ⟨hds, by intro d hd; cases hd⟩
      · next x =>
          split at h
          · exact absurd h (by simp)
          · next d2 hupd =>
              simp only [Except.ok.injEq, Prod.mk.injEq] at h
              obtain ⟨rfl, rfl⟩ := h
              refine ⟨hds, ?_⟩
              intro d hd
              obtain rfl : d2 = d := Option.some.inj hd
              have hx := hcur x rfl
              rcases updateFieldB_addresses x (removeAnsi (trimWs line)) d2 hupd with
                heq | ⟨a, heq, hne⟩
              · rw [heq]; exact hx
              · rw [heq]
                intro hmem
                rcases List.mem_append.mp hmem with hmem | hmem
                · exact hx hmem
                · exact hne (List.mem_singleton.mp hmem).symm
  · simp only [Except.ok.injEq, Prod.mk.injEq] at h
    obtain ⟨rfl, rfl⟩ := h
    exact ⟨hds, hcur⟩

theorem scanB_inv (lines : List Str) (ds : List DeviceB) (cur : Option DeviceB)
    (ds' : List DeviceB) (cur' : Option DeviceB)
    (h : scanB lines ds cur = .ok (ds', cur'))
    (hds : ∀ d ∈ ds, "not present".toList ∉ d.addresses)
    (hcur : ∀ d, cur = some d → "not present".toList ∉ d.addresses) :
    (∀ d ∈ ds', "not present".toList ∉ d.addresses) ∧
      (∀ d, cur' = some d → "not present".toList ∉ d.addresses) := by
  induction lines generalizing ds cur with
  | nil =>
    simp only [scanB, Except.ok.injEq, Prod.mk.injEq] at h
    obtain ⟨rfl, rfl⟩ := h
    exact ⟨hds, hcur⟩
  | cons l rest ih =>
    simp only [scanB] at h
    split at h
    · exact absurd h (by simp)
    · next dsm curm hstep =>
        obtain ⟨hds1, hcur1⟩ := stepB_inv ds cur l dsm curm hstep hds hcur
        exact ih dsm curm h hds1 hcur1

theorem numberFromB_mem (k : Nat) (ds : List DeviceB) (d : DeviceB)
    (hd : d ∈ numberFromB k ds) : ∃ d0 ∈ ds, d.addresses = d0.addresses := by
  induction ds generalizing k with
  | nil => simp [numberFromB] at hd
  | cons x rest ih =>
    simp only [numberFromB, List.mem_cons] at hd
    rcases hd with rfl | hd
    · exact ⟨x, List.mem_cons_self x rest, rfl⟩
    · obtain ⟨d0, hd0, heq⟩ := ih (k + 1) hd
      exact ⟨d0, List.mem_cons_of_mem x hd0, heq⟩

/-- C3 (amended): the server.js parser never stores the literal value
`not present` in a record's `addresses` (for any input), and it does append
a concrete address such as `10.0.0.5`.  (part_002's parser checks only
truthiness, so it does append `not present`; see `C3_counterexample`.) -/
theorem C3_notPresent_amended (s : Str) (d : DeviceB)
    (hd : d ∈ parseDiscoveryResultB s) :
    "not present".toList ∉ d.addresses ∧
    (parseDiscoveryResultB inC3ok).map DeviceB.addresses = [["10.0.0.5".toList]] := by
  refine ⟨?_, by decide⟩
  by_cases ht : (trimWs s == []) = true
  · have hp : parseDiscoveryResultB s = [] := by
      simp [parseDiscoveryResultB, parseBrun, ht]
    rw [hp] at hd
    simp at hd
  · cases hscan : scanB (splitOnChar '\n' s) [] none with
    | error e =>
      have hp : parseDiscoveryResultB s = [] := by
        simp [parseDiscoveryResultB, parseBrun, ht, hscan]
      rw [hp] at hd
      simp at hd
    | ok p =>
      obtain ⟨dsm, curm⟩ := p
      have hp : parseDiscoveryResultB s = numberFromB 1 (pushOptB dsm curm) := by
        simp [parseDiscoveryResultB, parseBrun, ht, hscan]
      rw [hp] at hd
      obtain ⟨hds, hcur⟩ := scanB_inv (splitOnChar '\n' s) [] none dsm curm hscan
        (by simp) (by intro d hd'; cases hd')
      obtain ⟨d0, hd0, heq⟩ := numberFromB_mem 1 (pushOptB dsm curm) d hd
      rw [heq]
      rcases pushOptB_mem dsm curm d0 hd0 with hm | hm
      · exact hds d0 hm
      · exact hcur d0 hm

theorem C3_witness :
    devC3 ∈ parseDiscoveryResultB inC3ok ∧
    "not present".toList ∉ devC3.addresses :=
  ⟨by decide, (C3_notPresent_amended inC3ok devC3 (by decide)).1⟩

/-- C3 does not hold as stated: part_002's parser appends the literal value
`not present` to `addresses` (its guard checks only non-emptiness). -/
theorem C3_counterexample :
    (parseDiscoveryResultA inC3cx).map DeviceA.addresses =
      [["not present".toList]] := by
  decide

/-! ### Claim C6 -/

/-- C6 (amended): the server.js parser strips ANSI color escapes from field
values — the color-wrapped hostname scenario yields the plain value with no
escape sequence left.  (part_002's parser performs no ANSI stripping; see
`C6_counterexample`.) -/
theorem C6_ansi_amended :
    (parseDiscoveryResultB inC6ok).map (fun d => (d.name, hasAnsi d.name)) =
      [("light1".toList, false)] := by
  decide

/-- C6 does not hold as stated: part_002's parser copies ANSI color escapes
verbatim into the extracted `name`. -/
theorem C6_counterexample :
    (parseDiscoveryResultA inC6cx).map (fun d => hasAnsi d.name) = [true] := by
  decide

/-! ### Claim C7 -/

theorem splitOnSubF_ne_nil (fuel : Nat) (pat l : Str) :
    splitOnSubF fuel pat l ≠ [] := by
  unfold splitOnSubF
  repeat' split
  all_goals simp

theorem hasSub_splitOnSubF (fuel : Nat) (p : Char) (ps l : Str)
    (hf : l.length ≤ fuel) (h : hasSub (p :: ps) l = true) :
    ∃ x y zs, splitOnSubF fuel (p :: ps) l = x :: y :: zs := by
  induction fuel generalizing l with
  | zero =>
    cases l with
    | nil => simp [hasSub, leadsWith] at h
    | cons c rest => simp at hf
  | succ fuel ih =>
    cases l with
    | nil => simp [hasSub, leadsWith] at h
    | cons c rest =>
      by_cases hl : leadsWith (p :: ps) (c :: rest) = true
      · obtain ⟨z, zs, hz⟩ := List.exists_cons_of_ne_nil
          (splitOnSubF_ne_nil fuel (p :: ps) (List.drop ps.length rest))
        refine ⟨[], z, zs, ?_⟩
        simp [splitOnSubF, hl, hz]
      · have h' : hasSub (p :: ps) rest = true := by
          simp only [hasSub, Bool.or_eq_true] at h
          rcases h with h | h
          · exact absurd h hl
          · exact h
        obtain ⟨x, y, zs, hxyz⟩ := ih rest (by simp at hf; omega) h'
        refine ⟨c :: x, y, zs, ?_⟩
        simp [splitOnSubF, hl, hxyz]

theorem hasSub_splitOnSub (pat l : Str) (hp : pat ≠ [])
    (h : hasSub pat l = true) :
    ∃ x y zs, splitOnSub pat l = x :: y :: zs := by
  obtain ⟨p, ps, rfl⟩ := List.exists_cons_of_ne_nil hp
  exact hasSub_splitOnSubF l.length p ps l (le_refl _) h

theorem ipValueB_ok (cl : Str) (h : hasSub "IP Address #".toList cl = true) :
    ∃ v, ipValueB cl = .ok v := by
  obtain ⟨x, y, zs, hxyz⟩ := hasSub_splitOnSub "IP Address #".toList cl (by decide) h
  unfold ipValueB
  rw [hxyz]
  exact ⟨_, rfl⟩

theorem updateFieldB_ok (d : DeviceB) (cl : Str) :
    ∃ r, updateFieldB d cl = .ok r := by
  unfold updateFieldB
  by_cases h1 : hasSub "Hostname:".toList cl = true
  · rw [if_pos h1]; exact ⟨_, rfl⟩
  · rw [if_neg h1]
    by_cases h2 : hasSub "IP Address #".toList cl = true
    · rw [if_pos h2]
      obtain ⟨v, hv⟩ := ipValueB_ok cl h2
      rw [hv]
      show ∃ r,
        (if v ≠ [] ∧ v ≠ "not present".toList then
            Except.ok { d with addresses := d.addresses ++ [v] }
          else Except.ok d) = Except.ok r
      by_cases hg : v ≠ [] ∧ v ≠ "not present".toList
      · rw [if_pos hg]; exact ⟨_, rfl⟩
      · rw [if_neg hg]; exact ⟨_, rfl⟩
    · rw [if_neg h2]
      by_cases h3 : hasSub "Port:".toList cl = true
      · rw [if_pos h3]; exact ⟨_, rfl⟩
      · rw [if_neg h3]
        by_cases h4 : hasSub "Long Discriminator:".toList cl = true
        · rw [if_pos h4]; exact ⟨_, rfl⟩
        · rw [if_neg h4]
          by_cases h5 : hasSub "Vendor ID:".toList cl = true
          · rw [if_pos h5]; exact ⟨_, rfl⟩
          · rw [if_neg h5]
            by_cases h6 : hasSub "Product ID:".toList cl = true
            · rw [if_pos h6]; exact ⟨_, rfl⟩
            · rw [if_neg h6]
              by_cases h7 : hasSub "Device Type:".toList cl = true
              · rw [if_pos h7]; exact ⟨_, rfl⟩
              · rw [if_neg h7]
                by_cases h8 : hasSub "Instance Name:".toList cl = true
                · rw [if_pos h8]; exact ⟨_, rfl⟩
                · rw [if_neg h8]
                  by_cases h9 : hasSub "Pairing Hint:".toList cl = true
                  · rw [if_pos h9]; exact ⟨_, rfl⟩
                  · rw [if_neg h9]
                    by_cases h10 : hasSub "Commissioning Mode:".toList cl = true
                    · rw [if_pos h10]; exact ⟨_, rfl⟩
                    · rw [if_neg h10]; exact ⟨d, rfl⟩

theorem stepB_ok (ds : List DeviceB) (cur : Option DeviceB) (line : Str) :
    ∃ p, stepB ds cur line = .ok p := by
  unfold stepB
  by_cases h1 : hasSub "[DIS]".toList line = true
  · rw [if_pos h1]
    by_cases h2 : hasSub marker (removeAnsi (trimWs line)) = true
    · rw [if_pos h2]; exact ⟨_, rfl⟩
    · rw [if_neg h2]
      cases cur with
      | none => exact ⟨(ds, none), rfl⟩
      | some d =>
        obtain ⟨r, hr⟩ := updateFieldB_ok d (removeAnsi (trimWs line))
        show ∃ p,
          (match updateFieldB d (removeAnsi (trimWs line)) with
            | Except.error e => Except.error e
            | Except.ok d' => Except.ok (ds, some d')) = Except.ok p
        rw [hr]
        exact ⟨(ds, some r), rfl⟩
  · rw [if_neg h1]; exact ⟨(ds, cur), rfl⟩

theorem scanB_ok (lines : List Str) (ds : List DeviceB) (cur : Option DeviceB) :
    ∃ p, scanB lines ds cur = .ok p := by
  induction lines generalizing ds cur with
  | nil => exact ⟨(ds, cur), rfl⟩
  | cons l rest ih =>
    obtain ⟨⟨dsm, curm⟩, hstep⟩ := stepB_ok ds cur l
    obtain ⟨p, hp⟩ := ih dsm curm
    exact ⟨p, by simp [scanB, hstep, hp]⟩

/-- C7: the server.js parser is total at its interface — its body never in
fact raises (the one fallible indexing is guarded by the `includes` check),
so for every input, including empty and malformed ones, the `try` body
returns the very list the caller receives, and the `catch` conversion to the
empty list is unreachable. -/
theorem C7_parser_total (s : Str) :
    parseBrun s = Except.ok (parseDiscoveryResultB s) := by
  unfold parseDiscoveryResultB parseBrun
  by_cases ht : (trimWs s == []) = true
  · rw [if_pos ht]
  · rw [if_neg ht]
    obtain ⟨⟨dsm, curm⟩, hscan⟩ := scanB_ok (splitOnChar '\n' s) [] none
    rw [hscan]

/-! ### Claim C5 -/

theorem mem_trimWs (l : Str) (a : Char) (h : a ∈ trimWs l) : a ∈ l := by
  unfold trimWs at h
  rw [List.mem_reverse] at h
  have h1 := List.Sublist.mem h (List.dropWhile_sublist isWs)
  rw [List.mem_reverse] at h1
  exact List.Sublist.mem h1 (List.dropWhile_sublist isWs)

theorem trimWs_eq_nil (l : Str) (h : trimWs l = []) (c : Char) (hc : c ∈ l) :
    isWs c = true := by
  unfold trimWs at h
  rw [List.reverse_eq_nil_iff, List.dropWhile_eq_nil_iff] at h
  have h2 : ∀ x ∈ List.dropWhile isWs l, isWs x = true := by
    intro x hx
    exact h x (List.mem_reverse.mpr hx)
  have h3 := List.takeWhile_append_dropWhile isWs l
  rw [← h3] at hc
  rcases List.mem_append.mp hc with hx | hx
  · exact List.mem_takeWhile_imp hx
  · exact h2 c hx

theorem expectChar_mem (c : Char) : ∀ l r, expectChar c l = some r →
    ∀ a, a ∈ r → a ∈ l := by
  intro l r h a ha
  cases l with
  | nil => simp [expectChar] at h
  | cons x rest =>
    simp only [expectChar] at h
    split at h
    · simp only [Option.some.injEq] at h
      subst h
      exact List.mem_cons_of_mem x ha
    · exact absurd h (by simp)

theorem digits1_mem : ∀ l r, digits1 l = some r → ∀ a, a ∈ r → a ∈ l := by
  intro l r h a ha
  cases l with
  | nil => simp [digits1] at h
  | cons x rest =>
    simp only [digits1] at h
    split at h
    · simp only [Option.some.injEq] at h
      subst h
      exact List.mem_cons_of_mem x (List.Sublist.mem ha (List.dropWhile_sublist isDigitCh))
    · exact absurd h (by simp)

theorem wordChars1_mem : ∀ l r, wordChars1 l = some r → ∀ a, a ∈ r → a ∈ l := by
  intro l r h a ha
  cases l with
  | nil => simp [wordChars1] at h
  | cons x rest =>
    simp only [wordChars1] at h
    split at h
    · simp only [Option.some.injEq] at h
      subst h
      exact List.mem_cons_of_mem x (List.Sublist.mem ha (List.dropWhile_sublist isWordCh))
    · exact absurd h (by simp)

theorem skipWsOpt_mem : ∀ l r, skipWsOpt l = some r → ∀ a, a ∈ r → a ∈ l := by
  intro l r h a ha
  unfold skipWsOpt at h
  simp only [Option.some.injEq] at h
  subst h
  exact List.Sublist.mem ha (List.dropWhile_sublist isWs)

theorem andThen_mem (f g : Str → Option Str)
    (hf : ∀ l r, f l = some r → ∀ a, a ∈ r → a ∈ l)
    (hg : ∀ l r, g l = some r → ∀ a, a ∈ r → a ∈ l) :
    ∀ l r, andThen f g l = some r → ∀ a, a ∈ r → a ∈ l := by
  intro l r h a ha
  unfold andThen at h
  cases hf' : f l with
  | none => rw [hf'] at h; simp at h
  | some m =>
    rw [hf'] at h
    simp only [Option.some_bind] at h
    exact hf l m hf' a (hg m r h a ha)

theorem matchLogHead_mem : ∀ l r, matchLogHead l = some r → ∀ a, a ∈ r → a ∈ l :=
  andThen_mem _ _ (expectChar_mem '[')
    (andThen_mem _ _ digits1_mem
      (andThen_mem _ _ (expectChar_mem '.')
        (andThen_mem _ _ digits1_mem
          (andThen_mem _ _ (expectChar_mem ']')
            (andThen_mem _ _ skipWsOpt_mem
              (andThen_mem _ _ (expectChar_mem '[')
                (andThen_mem _ _ digits1_mem
                  (andThen_mem _ _ (expectChar_mem ':')
                    (andThen_mem _ _ digits1_mem
                      (andThen_mem _ _ (expectChar_mem ']')
                        (andThen_mem _ _ skipWsOpt_mem
                          (andThen_mem _ _ (expectChar_mem '[')
                            (andThen_mem _ _ wordChars1_mem
                              (andThen_mem _ _ (expectChar_mem ']')
                                skipWsOpt_mem))))))))))))))

theorem removeFirstMatch_mem (l : Str) (a : Char) (h : a ∈ removeFirstMatch l) :
    a ∈ l := by
  induction l with
  | nil => simp [removeFirstMatch] at h
  | cons c rest ih =>
    unfold removeFirstMatch at h
    split at h
    · next rem hm => exact matchLogHead_mem (c :: rest) rem hm a h
    · rcases List.mem_cons.mp h with rfl | hm
      · exact List.mem_cons_self _ _
      · exact List.mem_cons_of_mem c (ih hm)

theorem cleanLineA_mem (l : Str) (a : Char) (h : a ∈ cleanLineA l) : a ∈ l :=
  removeFirstMatch_mem l a (mem_trimWs (removeFirstMatch l) a h)

theorem splitOnChar_mem (sep : Char) (s : Str) (l' : Str) (a : Char)
    (hl : l' ∈ splitOnChar sep s) (ha : a ∈ l') : a ∈ s := by
  induction s generalizing l' with
  | nil =>
    simp only [splitOnChar, List.mem_singleton] at hl
    subst hl
    simp at ha
  | cons c rest ih =>
    simp only [splitOnChar] at hl
    split at hl
    · rcases List.mem_cons.mp hl with rfl | hm
      · simp at ha
      · exact List.mem_cons_of_mem c (ih l' hm ha)
    · split at hl
      · next s0 ss hs =>
          rcases List.mem_cons.mp hl with rfl | hm
          · rcases List.mem_cons.mp ha with rfl | hm2
            · exact List.mem_cons_self _ _
            · have hs0 : s0 ∈ splitOnChar sep rest := by
                rw [hs]; exact List.mem_cons_self _ _
              exact List.mem_cons_of_mem c (ih s0 hs0 hm2)
          · have hl2 : l' ∈ splitOnChar sep rest := by
              rw [hs]; exact List.mem_cons_of_mem _ hm
            exact List.mem_cons_of_mem c (ih l' hl2 ha)
      · next hs =>
          rcases List.mem_cons.mp hl with rfl | hm
          · rcases List.mem_cons.mp ha with rfl | h2
            · exact List.mem_cons_self _ _
            · simp at h2
          · simp at hm

theorem cleanLineA_ws_ne_marker (l : Str) (hws : ∀ c ∈ l, isWs c = true) :
    (cleanLineA l == marker) = false := by
  cases hb : (cleanLineA l == marker) with
  | false => rfl
  | true =>
    exfalso
    have he : cleanLineA l = marker := beq_iff_eq.mp hb
    have hd : 'D' ∈ marker := by decide
    rw [← he] at hd
    have := hws 'D' (cleanLineA_mem l 'D' hd)
    simp [isWs] at this

theorem markerLineCount_eq_zero (s : Str) (h : trimWs s = []) :
    markerLineCount s = 0 := by
  unfold markerLineCount
  rw [List.length_eq_zero, List.filter_eq_nil_iff]
  intro l hl
  have hws : ∀ c ∈ l, isWs c = true := by
    intro c hc
    exact trimWs_eq_nil s h c (splitOnChar_mem '\n' s l c hl hc)
  simp [cleanLineA_ws_ne_marker l hws]

theorem scanA_cons (l : Str) (rest : List Str) (ds : List DeviceA)
    (cur : Option DeviceA) :
    scanA (l :: rest) ds cur = scanA rest (stepA ds cur l).1 (stepA ds cur l).2 := rfl

theorem scanA_finish_length (lines : List Str) (ds : List DeviceA)
    (cur : Option DeviceA) :
    (finishA (scanA lines ds cur)).length =
      (pushOpt ds cur).length +
        (lines.filter (fun l => cleanLineA l == marker)).length := by
  induction lines generalizing ds cur with
  | nil => simp [scanA, finishA]
  | cons l rest ih =>
    cases hm : (cleanLineA l == marker) with
    | true =>
      have hstep : stepA ds cur l = (pushOpt ds cur, some freshA) := by
        unfold stepA; rw [if_pos hm]
      rw [scanA_cons, hstep]
      dsimp only
      rw [ih]
      rw [List.filter_cons]
      simp only [hm, if_true]
      cases cur with
      | none => simp [pushOpt]; omega
      | some d => simp [pushOpt]; omega
    | false =>
      cases cur with
      | none =>
        have hstep : stepA ds none l = (ds, none) := by
          unfold stepA
          rw [if_neg (by simp [hm])]
        rw [scanA_cons, hstep]
        dsimp only
        rw [ih]
        rw [List.filter_cons]
        simp [hm]
      | some d =>
        have hstep : stepA ds (some d) l = (ds, some (updateFieldA d (cleanLineA l))) := by
          unfold stepA
          rw [if_neg (by simp [hm])]
        rw [scanA_cons, hstep]
        dsimp only
        rw [ih]
        rw [List.filter_cons]
        simp [hm, pushOpt]

theorem numberFrom_length (k : Nat) (ds : List DeviceA) :
    (numberFrom k ds).length = ds.length := by
  induction ds generalizing k with
  | nil => rfl
  | cons d rest ih => simp [numberFrom, ih]

theorem numberFrom_get (ds : List DeviceA) (k i : Nat)
    (h : i < (numberFrom k ds).length) :
    ((numberFrom k ds).get ⟨i, h⟩).nodeId = natStr (k + i) := by
  induction ds generalizing k i with
  | nil => simp [numberFrom] at h
  | cons d rest ih =>
    cases i with
    | zero => rfl
    | succ n =>
      have h' : n < (numberFrom (k + 1) rest).length := by
        have := h
        simp only [numberFrom, List.length_cons] at this
        omega
      have hstep :
          ((numberFrom k (d :: rest)).get ⟨n + 1, h⟩).nodeId =
            ((numberFrom (k + 1) rest).get ⟨n, h'⟩).nodeId := rfl
      rw [hstep, ih]
      congr 1
      omega

/-- C5 (amended): the number of records part_002's parser returns equals the
number of input lines whose cleaned form (log-head stripped, trimmed) is
exactly the marker — not the number of lines merely containing the marker —
and the i-th record's `nodeId` is the decimal string of i (1-based), in
encounter order. -/
theorem C5_markerCount_amended (s : Str) (i : Nat)
    (h : i < (parseDiscoveryResultA s).length) :
    (parseDiscoveryResultA s).length = markerLineCount s ∧
    ((parseDiscoveryResultA s).get ⟨i, h⟩).nodeId = natStr (i + 1) := by
  by_cases ht : (trimWs s == []) = true
  · exfalso
    have hp : parseDiscoveryResultA s = [] := by
      unfold parseDiscoveryResultA; rw [if_pos ht]
    rw [hp] at h
    simp at h
  · have hp : parseDiscoveryResultA s =
        numberFrom 1 (finishA (scanA (splitOnChar '\n' s) [] none)) := by
      unfold parseDiscoveryResultA; rw [if_neg ht]
    constructor
    · rw [hp, numberFrom_length, scanA_finish_length]
      unfold markerLineCount
      simp [pushOpt]
    · revert h
      rw [hp]
      intro h
      rw [numberFrom_get]
      congr 1
      omega

theorem C5_witness :
    1 < (parseDiscoveryResultA inC5w).length ∧
    ((parseDiscoveryResultA inC5w).length = markerLineCount inC5w ∧
      ((parseDiscoveryResultA inC5w).get ⟨1, by decide⟩).nodeId = natStr (1 + 1)) :=
  ⟨by decide, C5_markerCount_amended inC5w 1 (by decide)⟩

/-- C5 does not hold as stated: a line containing the marker as a substring
(with extra leading text) counts as an occurrence but opens no record, so
one occurrence yields zero records. -/
theorem C5_counterexample :
    ((splitOnChar '\n' inC5cx).filter (fun l => hasSub marker l)).length = 1 ∧
    parseDiscoveryResultA inC5cx = [] := by
  decide
